import Mathlib

set_option autoImplicit false

/-!
Verification development for the gosim wandering-person simulator.

The development shallowly embeds the two relevant layers of the program:

* the osm package (src/osm.go): nodes with latitude/longitude in degrees and
  the equirectangular distance GetDist, modelled over the real numbers; and
* the simulation engine (the main program of the repository, whose source is
  embedded at the end of src/README.md): persons, random way/destination
  planning, the per-tick Move step, the command loop over the people registry,
  and the post-tick database publish.

Float64 values of the osm distance code are modelled as real numbers.  The
engine, by contrast, never performs arithmetic on coordinates itself: it only
stores them, order-compares distances, and passes coordinates to the external
ellipsoid library (geo.To / geo.At).  The engine is therefore modelled with
rational coordinates and an abstract Geo interface standing for that external
library, which keeps every engine definition computable and decidable.
Go panics (rand.Intn on a non-positive bound, nil map dereference,
panic(err)) are modelled as the Option value none.
-/

namespace Osm

/-- osm.Node from src/osm.go: an id with latitude and longitude stored in
degrees; the float64 fields are modelled as real numbers. -/
structure Node where
  id : Nat
  lat : ℝ
  lon : ℝ

/-- The x intermediate of GetDist (src/osm.go lines 52-57): the longitude
difference in radians scaled by the cosine of the FIRST argument's latitude. -/
noncomputable def distX (n1 n2 : Node) : ℝ :=
  ((Real.pi / 180) * (n2.lon - n1.lon)) * Real.cos ((Real.pi / 180) * n1.lat)

/-- The y intermediate of GetDist: the latitude difference in radians. -/
noncomputable def distY (n1 n2 : Node) : ℝ :=
  (Real.pi / 180) * (n2.lat - n1.lat)

/-- GetDist from src/osm.go: equirectangular approximation of the distance in
meters between the two nodes, with Earth radius R = 6371000. -/
noncomputable def GetDist (n1 n2 : Node) : ℝ :=
  6371000 * Real.sqrt (distX n1 n2 * distX n1 n2 + distY n1 n2 * distY n1 n2)

/-- A node on the north pole at longitude 0. -/
def npoleA : Node := ⟨1, 90, 0⟩

/-- A node on the north pole at longitude 90. -/
def npoleB : Node := ⟨2, 90, 90⟩

/-- First node of the asymmetry pair for C10, at the origin. -/
def nAsymA : Node := ⟨0, 0, 0⟩

/-- Second node of the asymmetry pair for C10, at the pole. -/
def nAsymB : Node := ⟨1, 90, 90⟩

end Osm

namespace Gosim

/-- Node of the engine source (embedded in src/README.md): id with latitude and
longitude.  The engine only stores, compares and forwards coordinates, so the
float64 fields are modelled as rationals; the Way back-pointer slice built by
NewOsmXml is represented by the nodeWays function below. -/
structure Node where
  id : Int
  lat : ℚ
  lon : ℚ
deriving DecidableEq

/-- The zero value of a Go Node (what a fresh Node variable holds). -/
instance : Inhabited Node := ⟨⟨0, 0, 0⟩⟩

/-- Way of the engine source, with its resolved node list (w.Node after
NewOsmXml filled it from the nd references). -/
structure Way where
  nodes : List Node
deriving DecidableEq

instance : Inhabited Way := ⟨⟨[]⟩⟩

/-- The Osm graph of the engine source: all nodes and all ways. -/
structure Osm where
  nodes : List Node
  ways : List Way
deriving DecidableEq

/-- Abstract interface of the external ellipsoid library used by the engine:
geoTo models geo.To (distance and bearing from the first to the second point),
geoAt models geo.At (project latitude and longitude by distance and bearing). -/
structure Geo where
  geoTo : Node → Node → ℚ × ℚ
  geoAt : ℚ → ℚ → ℚ → ℚ → ℚ × ℚ

/-- Node.Move of the engine source: project the node by dist along bearing.
The result is a fresh zero-valued Node whose Lat and Lon are set by geo.At,
so its id is the zero value 0. -/
def Node.move (g : Geo) (n : Node) (dist bearing : ℚ) : Node :=
  { id := 0, lat := (g.geoAt n.lat n.lon dist bearing).1, lon := (g.geoAt n.lat n.lon dist bearing).2 }

/-- rand.Intn n: some value in [0, n) drawn from the oracle list (the next
oracle entry reduced mod n, so every residue is reachable); Intn panics when
n = 0, modelled as none.  An exhausted oracle keeps drawing 0. -/
def intn (n : Nat) (r : List Nat) : Option (Nat × List Nat) :=
  if n = 0 then none
  else
    match r with
    | [] => some (0, [])
    | k :: rest => some (k % n, rest)

/-- The way back-pointers built by NewOsmXml: for every way and every
occurrence of the node id in that way's node list, the way is appended to the
node's Way slice (a way containing the node k times appears k times). -/
def nodeWays (o : Osm) (n : Node) : List Way :=
  o.ways.flatMap (fun w => (w.nodes.filter (fun m => m.id = n.id)).map (fun _ => w))

/-- Way.RandNode of the engine source: a uniformly chosen entry of w.Node.
rand.Intn panics (none) when the way has no nodes. -/
def Way.randNode (w : Way) (r : List Nat) : Option (Node × List Nat) :=
  (intn w.nodes.length r).map (fun kr => (w.nodes.getD kr.1 default, kr.2))

/-- Node.RandWay of the engine source: a uniformly chosen way of the node's
Way slice.  rand.Intn panics (none) when the node lies on no way. -/
def Node.randWay (o : Osm) (n : Node) (r : List Nat) : Option (Way × List Nat) :=
  (intn (nodeWays o n).length r).map (fun kr => ((nodeWays o n).getD kr.1 default, kr.2))

/-- Osm.RandNode of the engine source: a uniformly chosen node of the graph.
rand.Intn panics (none) on an empty graph. -/
def Osm.randNode (o : Osm) (r : List Nat) : Option (Node × List Nat) :=
  (intn o.nodes.length r).map (fun kr => (o.nodes.getD kr.1 default, kr.2))

/-- Person of the engine source: uid, current location, destination, bearing,
the way pointer (nil modelled as none) and the enabled flag. -/
structure Person where
  uid : String
  loc : Node
  dest : Node
  bearing : ℚ
  way : Option Way
  enabled : Bool
deriving DecidableEq

/-- NewPerson of the engine source: only UID, loc and enabled are set; dest,
bearing and way keep their Go zero values. -/
def NewPerson (uid : String) (n : Node) : Person :=
  { uid := uid, loc := n, dest := default, bearing := 0, way := none, enabled := true }

/-- The destination-planning statement pair shared verbatim by HandleStart and
by the arrival branch of Person.Move:
SetWay(Loc().RandWay()) then SetDest(Loc().RandWay().RandNode()).
RandWay is invoked twice, independently: the way stored in the person and the
way the destination is drawn from are separate random picks. -/
def Person.planDest (o : Osm) (p : Person) (r : List Nat) : Option (Person × List Nat) :=
  match Node.randWay o p.loc r with
  | none => none
  | some (w, r1) =>
    match Node.randWay o p.loc r1 with
    | none => none
    | some (w2, r2) =>
      match Way.randNode w2 r2 with
      | none => none
      | some (n, r3) => some ({ p with way := some w, dest := n }, r3)

/-- Person.Move of the engine source: set the bearing to the bearing from loc
to dest, step dist along that bearing, then re-measure the distance from the
NEW location to dest; if it is now below dist, snap loc onto dest and
immediately re-plan way and destination.  A rand.Intn(0) panic during the
re-plan is none. -/
def Person.move (g : Geo) (o : Osm) (dist : ℚ) (p : Person) (r : List Nat) :
    Option (Person × List Nat) :=
  let db := g.geoTo p.loc p.dest
  let p1 : Person := { p with bearing := db.2, loc := Node.move g p.loc dist db.2 }
  if (g.geoTo p1.loc p1.dest).1 < dist then
    Person.planDest o { p1 with loc := p1.dest } r
  else
    some (p1, r)

/-- HandleStart of the engine source: build a fresh Person at a random graph
node, plan its way and destination, and hand it to the engine loop (which
inserts it into the people map).  No check against existing uids is made, and
the Rstart reply is unconditional. -/
def handleStart (o : Osm) (uid : String) (r : List Nat) : Option (Person × List Nat) :=
  match Osm.randNode o r with
  | none => none
  | some (n, r1) => Person.planDest o (NewPerson uid n) r1

/-- The people map of the engine source, as an association list keyed by uid. -/
abbrev Registry := List (String × Person)

/-- Reading people[uid]: none when the key is absent (a nil pointer in Go). -/
def regLookup (reg : Registry) (uid : String) : Option Person :=
  (reg.find? (fun e => e.1 = uid)).map (fun e => e.2)

/-- people[p.UID] = p: map insert, silently overwriting any existing entry. -/
def regInsert (reg : Registry) (p : Person) : Registry :=
  (p.uid, p) :: reg.filter (fun e => e.1 ≠ p.uid)

/-- delete(people, uid): removes the entry, a silent no-op on an absent key. -/
def regDelete (reg : Registry) (uid : String) : Registry :=
  reg.filter (fun e => e.1 ≠ uid)

/-- people[uid].enabled = b: in-place mutation through the map pointer. -/
def regSetEnabled (reg : Registry) (uid : String) (b : Bool) : Registry :=
  reg.map (fun e => if e.1 = uid then (e.1, { e.2 with enabled := b }) else e)

/-- The command constants STOP, CONTINUE, PAUSE of the engine source. -/
inductive Cmd
  | STOP
  | CONTINUE
  | PAUSE
deriving DecidableEq

/-- A Command of the engine source: a command code and the target uid. -/
structure Command where
  command : Cmd
  uid : String

/-- The command case of the engine loop.  PAUSE and CONTINUE dereference
people[uid] without checking presence, so an unknown uid is a nil-pointer
panic (none); STOP is a plain map delete that never fails. -/
def applyCommand (reg : Registry) (c : Command) : Option Registry :=
  match c.command with
  | Cmd.PAUSE =>
    match regLookup reg c.uid with
    | none => none
    | some _ => some (regSetEnabled reg c.uid false)
  | Cmd.CONTINUE =>
    match regLookup reg c.uid with
    | none => none
    | some _ => some (regSetEnabled reg c.uid true)
  | Cmd.STOP => some (regDelete reg c.uid)

/-- The sweep of the ticker case of the engine loop: every person with
enabled = true is advanced by Person.Move with the fixed step distance;
disabled persons are left untouched. -/
def tickSweep (g : Geo) (o : Osm) (dist : ℚ) : Registry → List Nat → Option (Registry × List Nat)
  | [], r => some ([], r)
  | e :: rest, r =>
    if e.2.enabled then
      match Person.move g o dist e.2 r with
      | none => none
      | some (p1, r1) =>
        match tickSweep g o dist rest r1 with
        | none => none
        | some (rs, r2) => some ((e.1, p1) :: rs, r2)
    else
      match tickSweep g o dist rest r with
      | none => none
      | some (rs, r1) => some ((e.1, e.2) :: rs, r1)

/-- UpdatePeople of the engine source: upsert every person's (uid, lat, lon)
into the database collection; an upsert error is panic(err), modelled as none
aborting the whole publish. -/
def updatePeople (sink : String → ℚ → ℚ → Option Unit) : Registry → Option Unit
  | [] => some ()
  | e :: rest =>
    match sink e.1 e.2.loc.lat e.2.loc.lon with
    | none => none
    | some _ => updatePeople sink rest

/-- The fixed per-tick step distance of the engine source: the average walking
speed 1.56464 m/s times the 1-second tick period. -/
def walkingSpeed : ℚ := 1.56464

/-- The full ticker event of the engine loop: advance every enabled person,
then publish every person's position through UpdatePeople. -/
def onTick (g : Geo) (o : Osm) (sink : String → ℚ → ℚ → Option Unit)
    (reg : Registry) (r : List Nat) : Option (Registry × List Nat) :=
  match tickSweep g o walkingSpeed reg r with
  | none => none
  | some (rs, r1) =>
    match updatePeople sink rs with
    | none => none
    | some _ => some (rs, r1)

/-- One-dimensional test geometry: all motion is along the latitude axis,
distance is the latitude difference, bearing is the sign of travel.  It
satisfies the GeoMath contract of the spec exactly. -/
def geoLine : Geo :=
  { geoTo := fun a b => (if a.lat ≤ b.lat then b.lat - a.lat else a.lat - b.lat,
                         if a.lat ≤ b.lat then 1 else -1)
    geoAt := fun la lo dist brg => (la + brg * dist, lo) }

/-- Test node at latitude 0 on the test way. -/
def tn0 : Node := ⟨1, 0, 0⟩

/-- Test node at latitude 3/2 on the test way. -/
def tn2 : Node := ⟨2, 3 / 2, 0⟩

/-- The test way holding tn0 and tn2. -/
def wT1 : Way := ⟨[tn0, tn2]⟩

/-- The test graph: two nodes joined by one way. -/
def osmT1 : Osm := ⟨[tn0, tn2], [wT1]⟩

/-- An agent standing on tn0, en route to tn2, 3/2 meters away. -/
def pC1 : Person :=
  { uid := "a", loc := tn0, dest := tn2, bearing := 0, way := some wT1, enabled := true }

/-- What Person.Move actually produces for pC1 with step 1: the agent lands on
tn2 and is re-planned toward tn0. -/
def pC1after : Person :=
  { uid := "a", loc := tn2, dest := tn0, bearing := 1, way := some wT1, enabled := true }

/-- An agent standing on tn0 with a destination 3 meters away (outside the
snap window), used to witness the projected-step branch. -/
def pFar : Person :=
  { uid := "b", loc := tn0, dest := ⟨3, 3, 0⟩, bearing := 0, way := some wT1, enabled := true }

/-- pFar after one Move step of 1: the projected point, still en route. -/
def pFarAfter : Person :=
  { uid := "b", loc := ⟨0, 1, 0⟩, dest := ⟨3, 3, 0⟩, bearing := 1, way := some wT1, enabled := true }

/-- Taxicab test geometry: distance is the sum of coordinate differences,
bearing is 0 for due-latitude travel (no longitude change) and 1 otherwise;
projection moves one distance unit in latitude and bearing-many in longitude. -/
def geoTaxi : Geo :=
  { geoTo := fun a b =>
      ((if a.lat ≤ b.lat then b.lat - a.lat else a.lat - b.lat) +
         (if a.lon ≤ b.lon then b.lon - a.lon else a.lon - b.lon),
       if b.lon - a.lon = 0 then 0 else 1)
    geoAt := fun la lo dist brg => (la + dist, lo + brg * dist) }

/-- First node of the three-node test way, the agent's position (index 0). -/
def wa : Node := ⟨11, 0, 0⟩

/-- Middle node of the three-node test way: the node adjacent to wa in the
direction of the destination (index 1). -/
def wb : Node := ⟨12, 1, 0⟩

/-- Last node of the three-node test way, the destination (index 2). -/
def wc : Node := ⟨13, 2, 5⟩

/-- The three-node test way [wa, wb, wc]. -/
def wC2 : Way := ⟨[wa, wb, wc]⟩

/-- The test graph holding the three-node way. -/
def osmC2 : Osm := ⟨[wa, wb, wc], [wC2]⟩

/-- An agent standing on wa (index 0 of its way), en route to wc (index 2). -/
def pC2 : Person :=
  { uid := "c", loc := wa, dest := wc, bearing := 0, way := some wC2, enabled := true }

/-- pC2 after one Move step of 1: bearing 1, the straight-line bearing toward
the final destination wc, not the bearing 0 toward the adjacent node wb. -/
def pC2after : Person :=
  { uid := "c", loc := ⟨0, 1, 1⟩, dest := wc, bearing := 1, way := some wC2, enabled := true }

/-- The waypoint index selection of the earlier Wander variant
(src/unnamed/part_000, lines 204-214): from startidx, step one position along
the way toward destidx. -/
def nextIdx (startidx destidx : Nat) : Nat :=
  if destidx > startidx then startidx + 1
  else if destidx < startidx then startidx - 1
  else startidx

/-- An isolated node: present in the graph but on no way. -/
def isoNode : Node := ⟨7, 0, 0⟩

/-- A graph whose only node is isolated (its waysThrough set is empty). -/
def osmIso : Osm := ⟨[isoNode], []⟩

/-- The agent x as first created: standing on tn0, destination tn2. -/
def pX1 : Person :=
  { uid := "x", loc := tn0, dest := tn2, bearing := 0, way := some wT1, enabled := true }

/-- The agent that a second Tstart x builds: a fresh plan standing on tn2 with
destination tn0, unrelated to the existing agent pX1. -/
def pX2 : Person :=
  { uid := "x", loc := tn2, dest := tn0, bearing := 0, way := some wT1, enabled := true }

/-- The agent that Plan produces for the oracle that picks index 0 everywhere:
it stands on tn0 and its destination is tn0 itself. -/
def pA0 : Person :=
  { uid := "a", loc := tn0, dest := tn0, bearing := 0, way := some wT1, enabled := true }

/-- A trivial test geometry whose distances and bearings are all 0. -/
def geo0 : Geo := ⟨fun _ _ => (0, 0), fun _ _ _ _ => (0, 0)⟩

/-- The empty test graph. -/
def osm0 : Osm := ⟨[], []⟩

/-- A position sink whose upserts always succeed. -/
def sinkOk : String → ℚ → ℚ → Option Unit := fun _ _ _ => some ()

/-- A position sink whose upserts always fail (c.Upsert returns an error). -/
def sinkFail : String → ℚ → ℚ → Option Unit := fun _ _ _ => none

/-- A disabled (paused) agent with distinctive field values. -/
def pDis : Person :=
  { uid := "d", loc := ⟨5, 1, 2⟩, dest := ⟨6, 3, 4⟩, bearing := 9, way := none, enabled := false }

end Gosim

namespace Osm

/-- Claim C9, counterexample: the two pole nodes npoleA and npoleB differ in
longitude, yet GetDist returns 0 for them, because the longitude difference is
scaled by cos of the latitude and cos (pi/2) = 0.  So GetDist being 0 does not
imply that the two nodes are the same coordinate. -/
theorem getDist_zero_at_pole :
    GetDist npoleA npoleB = 0 ∧ ¬(npoleA.lat = npoleB.lat ∧ npoleA.lon = npoleB.lon) := by
  constructor
  · have h90 : (Real.pi / 180) * (90 : ℝ) = Real.pi / 2 := by ring
    have hx : distX npoleA npoleB = 0 := by
      simp only [distX, npoleA, npoleB]
      rw [h90, Real.cos_pi_div_two, mul_zero]
    have hy : distY npoleA npoleB = 0 := by
      simp only [distY, npoleA, npoleB]
      norm_num
    rw [GetDist, hx, hy]
    norm_num
  · rintro ⟨h1, h2⟩
    simp only [npoleA, npoleB] at h2
    norm_num at h2

/-- Claim C9, amended: GetDist is always nonnegative, and it is 0 exactly when
the latitudes agree and the cos-scaled longitude difference (the x intermediate
of the source) is 0.  At latitudes where the cosine does not vanish this means
the same coordinate, but at the poles distinct longitudes also give 0. -/
theorem getDist_nonneg_and_zero_iff (a b : Node) :
    0 ≤ GetDist a b ∧ (GetDist a b = 0 ↔ a.lat = b.lat ∧ distX a b = 0) := by
  constructor
  · rw [GetDist]
    positivity
  · rw [GetDist]
    constructor
    · intro h
      have hR : (6371000 : ℝ) ≠ 0 := by norm_num
      have hs : Real.sqrt (distX a b * distX a b + distY a b * distY a b) = 0 :=
        (mul_eq_zero.mp h).resolve_left hR
      have hnn : 0 ≤ distX a b * distX a b + distY a b * distY a b :=
        add_nonneg (mul_self_nonneg _) (mul_self_nonneg _)
      have hsum : distX a b * distX a b + distY a b * distY a b = 0 :=
        (Real.sqrt_eq_zero hnn).mp hs
      have hx : distX a b = 0 := by
        nlinarith [mul_self_nonneg (distX a b), mul_self_nonneg (distY a b)]
      have hy : distY a b = 0 := by
        nlinarith [mul_self_nonneg (distX a b), mul_self_nonneg (distY a b)]
      refine ⟨?_, hx⟩
      rw [distY] at hy
      rcases mul_eq_zero.mp hy with hpi | hd
      · exfalso
        have hpiz : Real.pi = 0 := by
          field_simp at hpi
          exact hpi
        exact Real.pi_ne_zero hpiz
      · linarith [sub_eq_zero.mp hd]
    · rintro ⟨h1, h2⟩
      have hy : distY a b = 0 := by rw [distY, h1]; ring
      rw [h2, hy]
      norm_num

/-- Claim C10: GetDist scales the longitude difference by the cosine of the
FIRST argument's latitude only, so it is not symmetric in general: the pair
(nAsymA, nAsymB) with distinct latitudes has GetDist differing between the two
argument orders, while any two nodes of equal latitude always give symmetric
distances. -/
theorem getDist_asymmetric :
    (∃ n1 n2 : Node, n1.lat ≠ n2.lat ∧ GetDist n1 n2 ≠ GetDist n2 n1) ∧
    (∀ n1 n2 : Node, n1.lat = n2.lat → GetDist n1 n2 = GetDist n2 n1) := by
  constructor
  · refine ⟨nAsymA, nAsymB, by simp only [nAsymA, nAsymB]; norm_num, ?_⟩
    have h90 : (Real.pi / 180) * (90 : ℝ) = Real.pi / 2 := by ring
    have hxAB : distX nAsymA nAsymB = Real.pi / 2 := by
      simp only [distX, nAsymA, nAsymB]
      rw [mul_zero, Real.cos_zero]
      ring
    have hyAB : distY nAsymA nAsymB = Real.pi / 2 := by
      simp only [distY, nAsymA, nAsymB]
      ring
    have hxBA : distX nAsymB nAsymA = 0 := by
      simp only [distX, nAsymA, nAsymB]
      rw [h90, Real.cos_pi_div_two, mul_zero]
    have hyBA : distY nAsymB nAsymA = -(Real.pi / 2) := by
      simp only [distY, nAsymA, nAsymB]
      ring
    have eAB : GetDist nAsymA nAsymB = 6371000 * Real.sqrt (Real.pi ^ 2 / 2) := by
      rw [GetDist, hxAB, hyAB]
      congr 1
      congr 1
      ring
    have eBA : GetDist nAsymB nAsymA = 6371000 * Real.sqrt (Real.pi ^ 2 / 4) := by
      rw [GetDist, hxBA, hyBA]
      congr 1
      congr 1
      ring
    rw [eAB, eBA]
    intro h
    have hR : (6371000 : ℝ) ≠ 0 := by norm_num
    have hs : Real.sqrt (Real.pi ^ 2 / 2) = Real.sqrt (Real.pi ^ 2 / 4) :=
      mul_left_cancel₀ hR h
    have heq : Real.pi ^ 2 / 2 = Real.pi ^ 2 / 4 :=
      (Real.sqrt_inj (by positivity) (by positivity)).mp hs
    have hpi0 : Real.pi = 0 := by nlinarith [Real.pi_pos]
    exact Real.pi_ne_zero hpi0
  · intro n1 n2 h
    have hy1 : distY n1 n2 = 0 := by rw [distY, h]; ring
    have hy2 : distY n2 n1 = 0 := by rw [distY, h]; ring
    have hx : distX n2 n1 = -distX n1 n2 := by
      simp only [distX]
      rw [h]
      ring
    rw [GetDist, GetDist, hy1, hy2, hx]
    congr 1
    congr 1
    ring

end Osm

namespace Gosim

/-- Person.planDest only rewrites way and dest: uid, loc, bearing and the
enabled flag survive a re-plan. -/
theorem planDest_preserves (o : Osm) (p q : Person) (r r1 : List Nat)
    (h : Person.planDest o p r = some (q, r1)) :
    q.uid = p.uid ∧ q.loc = p.loc ∧ q.bearing = p.bearing ∧ q.enabled = p.enabled := by
  unfold Person.planDest at h
  split at h
  · exact absurd h (by simp)
  · split at h
    · exact absurd h (by simp)
    · split at h
      · exact absurd h (by simp)
      · simp only [Option.some.injEq, Prod.mk.injEq] at h
        obtain ⟨hq, _⟩ := h
        subst hq
        simp

/-- Claim C1, counterexample: for pC1 the remaining distance before the step is
3/2, NOT below the step distance 1, so the claim requires the agent to move to
the projected point (latitude 1) and stay en route; the code instead steps,
re-measures only 1/2 remaining, snaps onto the destination tn2 and re-plans
(the destination changes).  The pre-step threshold of the claim is wrong. -/
theorem move_overshoot_cex :
    ¬((geoLine.geoTo pC1.loc pC1.dest).1 < 1) ∧
    Person.move geoLine osmT1 1 pC1 [0, 0, 0] = some (pC1after, []) ∧
    pC1after.loc ≠ Node.move geoLine pC1.loc 1 (geoLine.geoTo pC1.loc pC1.dest).2 ∧
    pC1after.loc = pC1.dest ∧
    pC1after.dest ≠ pC1.dest := by
  refine ⟨by norm_num [geoLine, pC1, tn0, tn2], ?_, by decide, rfl, by decide⟩
  norm_num [Person.move, Node.move, Person.planDest, Node.randWay, Way.randNode,
    nodeWays, intn, geoLine, osmT1, wT1, tn0, tn2, pC1, pC1after]

/-- Claim C1, amended: a Move step always projects first; the snap test uses
the distance re-measured from the NEW position.  Whenever Move succeeds, the
agent either keeps the projected position (with destination and way intact and
no randomness consumed) because the post-step distance is still at least the
step, or the post-step distance fell below the step and the agent sits exactly
on its previous destination with the bearing it walked under. -/
theorem move_step_or_snap (g : Geo) (o : Osm) (dist : ℚ) (p q : Person)
    (r r1 : List Nat) (h : Person.move g o dist p r = some (q, r1)) :
    (¬(g.geoTo (Node.move g p.loc dist (g.geoTo p.loc p.dest).2) p.dest).1 < dist ∧
        q = { p with bearing := (g.geoTo p.loc p.dest).2,
                     loc := Node.move g p.loc dist (g.geoTo p.loc p.dest).2 } ∧
        r1 = r) ∨
    ((g.geoTo (Node.move g p.loc dist (g.geoTo p.loc p.dest).2) p.dest).1 < dist ∧
        q.loc = p.dest ∧ q.bearing = (g.geoTo p.loc p.dest).2) := by
  unfold Person.move at h
  dsimp only at h
  split at h
  · rename_i hlt
    right
    have hp := planDest_preserves o _ q r r1 h
    exact ⟨hlt, by simpa using hp.2.1, by simpa using hp.2.2.1⟩
  · rename_i hge
    left
    simp only [Option.some.injEq, Prod.mk.injEq] at h
    obtain ⟨h1, h2⟩ := h
    exact ⟨hge, h1.symm, h2.symm⟩

/-- Witness for the amended C1 theorem at the concrete agent pFar. -/
theorem move_step_or_snap_witness :
    (¬(geoLine.geoTo (Node.move geoLine pFar.loc 1 (geoLine.geoTo pFar.loc pFar.dest).2) pFar.dest).1 < 1 ∧
        pFarAfter = { pFar with
                        bearing := (geoLine.geoTo pFar.loc pFar.dest).2,
                        loc := Node.move geoLine pFar.loc 1 (geoLine.geoTo pFar.loc pFar.dest).2 } ∧
        ([] : List Nat) = []) ∨
    ((geoLine.geoTo (Node.move geoLine pFar.loc 1 (geoLine.geoTo pFar.loc pFar.dest).2) pFar.dest).1 < 1 ∧
        pFarAfter.loc = pFar.dest ∧ pFarAfter.bearing = (geoLine.geoTo pFar.loc pFar.dest).2) :=
  move_step_or_snap geoLine osmT1 1 pFar pFarAfter [] []
    (by norm_num [Person.move, Node.move, geoLine, pFar, pFarAfter, tn0, wT1, tn2])

/-- Claim C2, counterexample: the agent pC2 stands on index 0 of its way and
walks to the node at index 2; the node adjacent in the direction of the
destination is wb at index nextIdx 0 2 = 1, whose bearing from pC2 is 0; yet
the Move step of the current engine sets the bearing to 1, the bearing
straight toward the final destination wc.  The walk is a straight line to the
destination, not a node-by-node traversal. -/
theorem move_bearing_cex :
    Person.move geoTaxi osmC2 1 pC2 [] = some (pC2after, []) ∧
    pC2after.bearing = (geoTaxi.geoTo pC2.loc pC2.dest).2 ∧
    wC2.nodes.getD (nextIdx 0 2) default = wb ∧
    pC2after.bearing ≠ (geoTaxi.geoTo pC2.loc wb).2 := by
  refine ⟨?_, ?_, rfl, ?_⟩
  · norm_num [Person.move, Node.move, geoTaxi, osmC2, wC2, wa, wb, wc, pC2, pC2after]
  · norm_num [geoTaxi, pC2, pC2after, wa, wc]
  · norm_num [geoTaxi, pC2, pC2after, wa, wb]

/-- Claim C2, amended: in a non-snapping Move step the bearing the agent
stores and walks under is the bearing from its current position straight to
the final destinationNode; the destination and way are untouched and the step
does not consult the street graph at all (any other graph gives the same
result), so the walk is a straight line toward the destination rather than a
node-by-node traversal of the way (node-by-node waypoints exist only in the
earlier Wander variant). -/
theorem move_bearing_final_dest (g : Geo) (o o2 : Osm) (dist : ℚ) (p q : Person)
    (r r1 : List Nat) (h : Person.move g o dist p r = some (q, r1))
    (hfar : ¬(g.geoTo (Node.move g p.loc dist (g.geoTo p.loc p.dest).2) p.dest).1 < dist) :
    q.bearing = (g.geoTo p.loc p.dest).2 ∧ q.dest = p.dest ∧ q.way = p.way ∧
    Person.move g o2 dist p r = some (q, r1) := by
  unfold Person.move at h ⊢
  dsimp only at h ⊢
  rw [if_neg hfar] at h ⊢
  simp only [Option.some.injEq, Prod.mk.injEq] at h
  obtain ⟨h1, h2⟩ := h
  subst h1
  subst h2
  exact ⟨rfl, rfl, rfl, rfl⟩

/-- Witness for the amended C2 theorem: the concrete step of pC2, checked
against a second, different graph (the two-node graph osmT1). -/
theorem move_bearing_final_dest_witness :
    pC2after.bearing = (geoTaxi.geoTo pC2.loc pC2.dest).2 ∧ pC2after.dest = pC2.dest ∧
    pC2after.way = pC2.way ∧
    Person.move geoTaxi osmT1 1 pC2 [] = some (pC2after, []) :=
  move_bearing_final_dest geoTaxi osmC2 osmT1 1 pC2 pC2after [] []
    (by norm_num [Person.move, Node.move, geoTaxi, osmC2, wC2, wa, wb, wc, pC2, pC2after])
    (by norm_num [Person.move, Node.move, geoTaxi, pC2, wa, wc])

/-- Claim C3 (code bug), evaluating the code at the failing input: the
isolated node has an empty Way slice, so Node.RandWay calls rand.Intn(0),
which panics (none) instead of treating the node as a dead end; HandleStart
for an agent placed on that node panics the same way, so the agent is never
planned, not kept Idle and reported stranded. -/
theorem plan_isolated_panics :
    nodeWays osmIso isoNode = [] ∧
    Node.randWay osmIso isoNode [0] = none ∧
    handleStart osmIso "a" [0] = none := by
  refine ⟨rfl, rfl, rfl⟩

/-- Claim C4, counterexample: with agent x already registered as pX1, a second
HandleStart for the same uid succeeds (no AlreadyExists), produces the fresh
agent pX2, and the engine's map insert replaces pX1, resetting the stored
position of x. -/
theorem create_duplicate_cex :
    handleStart osmT1 "x" [1, 0, 0, 0] = some (pX2, []) ∧
    regLookup (regInsert [("x", pX1)] pX2) "x" = some pX2 ∧
    pX2.loc ≠ pX1.loc := by
  refine ⟨?_, ?_, by decide⟩
  · norm_num [handleStart, Osm.randNode, NewPerson, Person.planDest, Node.randWay,
      Way.randNode, nodeWays, intn, osmT1, wT1, tn0, tn2, pX2]
  · norm_num [regLookup, regInsert, pX1, pX2, List.find?]

/-- Inserting a person into the people map makes it the entry found under its
uid, whatever was there before. -/
theorem regInsert_lookup (reg : Registry) (p : Person) :
    regLookup (regInsert reg p) p.uid = some p := by
  simp [regLookup, regInsert, List.find?]

/-- handleStart plans a person carrying exactly the requested uid. -/
theorem handleStart_uid (o : Osm) (uid : String) (r r1 : List Nat) (p : Person)
    (h : handleStart o uid r = some (p, r1)) : p.uid = uid := by
  unfold handleStart at h
  split at h
  · exact absurd h (by simp)
  · exact (planDest_preserves o _ p _ r1 h).1

/-- Claim C4, amended: a second create of an existing uid does not fail and
does not preserve the old agent: HandleStart never consults the registry, and
whenever it succeeds, inserting its result overwrites the registered agent of
that uid, so the old position, destination and way are discarded. -/
theorem create_overwrite (o : Osm) (reg : Registry) (uid : String)
    (r r1 : List Nat) (p : Person) (h : handleStart o uid r = some (p, r1)) :
    regLookup (regInsert reg p) uid = some p := by
  rw [← handleStart_uid o uid r r1 p h]
  exact regInsert_lookup reg p

/-- Witness for the amended C4 theorem: the second create of x replaces pX1
with the freshly planned pX2. -/
theorem create_overwrite_witness :
    regLookup (regInsert [("x", pX1)] pX2) "x" = some pX2 :=
  create_overwrite osmT1 [("x", pX1)] "x" [1, 0, 0, 0] [] pX2
    (by norm_num [handleStart, Osm.randNode, NewPerson, Person.planDest, Node.randWay,
      Way.randNode, nodeWays, intn, osmT1, wT1, tn0, tn2, pX2])

/-- Claim C5 (code bug), evaluating the code at the failing input: on a
registry that does not know uid y, the PAUSE and CONTINUE commands dereference
the nil map entry people[y] and panic (none), crashing the engine loop; STOP
merely deletes nothing and leaves the registry unchanged, while its handler
replies Rstop y rather than reporting an unknown agent. -/
theorem unknown_uid_command_panics :
    applyCommand [] ⟨Cmd.PAUSE, "y"⟩ = none ∧
    applyCommand [] ⟨Cmd.CONTINUE, "y"⟩ = none ∧
    applyCommand [] ⟨Cmd.STOP, "y"⟩ = some [] := by
  refine ⟨rfl, rfl, rfl⟩

end Gosim

namespace Gosim

/-- A successful rand.Intn draw is below its bound. -/
theorem intn_lt (n : Nat) (r : List Nat) (k : Nat) (r1 : List Nat)
    (h : intn n r = some (k, r1)) : k < n := by
  unfold intn at h
  split at h
  · exact absurd h (by simp)
  · rename_i hn
    split at h
    · simp only [Option.some.injEq, Prod.mk.injEq] at h
      obtain ⟨hk, _⟩ := h
      subst hk
      exact Nat.pos_of_ne_zero hn
    · simp only [Option.some.injEq, Prod.mk.injEq] at h
      obtain ⟨hk, _⟩ := h
      subst hk
      exact Nat.mod_lt _ (Nat.pos_of_ne_zero hn)

/-- A way returned by Node.RandWay belongs to the node's Way slice. -/
theorem randWay_mem (o : Osm) (n : Node) (r r1 : List Nat) (w : Way)
    (h : Node.randWay o n r = some (w, r1)) : w ∈ nodeWays o n := by
  unfold Node.randWay at h
  cases hi : intn (nodeWays o n).length r with
  | none => rw [hi] at h; exact absurd h (by simp)
  | some kr =>
    obtain ⟨k, rr⟩ := kr
    rw [hi] at h
    simp only [Option.map_some', Option.some.injEq, Prod.mk.injEq] at h
    obtain ⟨hw, _⟩ := h
    subst hw
    have hk := intn_lt _ r k rr hi
    rw [List.getD_eq_getElem _ _ hk]
    exact List.getElem_mem hk

/-- A node returned by Way.RandNode belongs to the way's node list. -/
theorem randNode_mem (w : Way) (r r1 : List Nat) (n : Node)
    (h : Way.randNode w r = some (n, r1)) : n ∈ w.nodes := by
  unfold Way.randNode at h
  cases hi : intn w.nodes.length r with
  | none => rw [hi] at h; exact absurd h (by simp)
  | some kr =>
    obtain ⟨k, rr⟩ := kr
    rw [hi] at h
    simp only [Option.map_some', Option.some.injEq, Prod.mk.injEq] at h
    obtain ⟨hn, _⟩ := h
    subst hn
    have hk := intn_lt _ r k rr hi
    rw [List.getD_eq_getElem _ _ hk]
    exact List.getElem_mem hk

/-- A node returned by Osm.RandNode belongs to the graph. -/
theorem osmRandNode_mem (o : Osm) (r r1 : List Nat) (n : Node)
    (h : Osm.randNode o r = some (n, r1)) : n ∈ o.nodes := by
  unfold Osm.randNode at h
  cases hi : intn o.nodes.length r with
  | none => rw [hi] at h; exact absurd h (by simp)
  | some kr =>
    obtain ⟨k, rr⟩ := kr
    rw [hi] at h
    simp only [Option.map_some', Option.some.injEq, Prod.mk.injEq] at h
    obtain ⟨hn, _⟩ := h
    subst hn
    have hk := intn_lt _ r k rr hi
    rw [List.getD_eq_getElem _ _ hk]
    exact List.getElem_mem hk

/-- Every way of a node's Way slice is a graph way whose node list mentions
the node's id. -/
theorem mem_nodeWays_contains (o : Osm) (n : Node) (w : Way) (h : w ∈ nodeWays o n) :
    w ∈ o.ways ∧ w.nodes.any (fun m => m.id = n.id) = true := by
  unfold nodeWays at h
  rw [List.mem_flatMap] at h
  obtain ⟨w0, hw0, hmem⟩ := h
  rw [List.mem_map] at hmem
  obtain ⟨m, hm, rfl⟩ := hmem
  rw [List.mem_filter] at hm
  refine ⟨hw0, ?_⟩
  rw [List.any_eq_true]
  exact ⟨m, hm.1, hm.2⟩

/-- Claim C6, counterexample: with the all-zeros oracle, Plan for a fresh
agent picks tn0 as the start node and then picks tn0 itself as destination:
the destination of a freshly planned agent can equal its origin node, because
Way.RandNode draws over all node positions with no retry. -/
theorem plan_dest_eq_origin_cex :
    handleStart osmT1 "a" [0, 0, 0, 0] = some (pA0, []) ∧ pA0.dest = pA0.loc := by
  refine ⟨?_, rfl⟩
  norm_num [handleStart, Osm.randNode, NewPerson, Person.planDest, Node.randWay,
    Way.randNode, nodeWays, intn, osmT1, wT1, tn0, tn2, pA0]

/-- The shared planning statement pair establishes, for ANY person it is
applied to: the location is untouched, the stored way is one of the ways
through that location (and hence mentions the location's id), and the
destination lies on some way through that location. -/
theorem planDest_invariant (o : Osm) (p q : Person) (r r1 : List Nat)
    (h : Person.planDest o p r = some (q, r1)) :
    q.loc = p.loc ∧
    (∃ w, q.way = some w ∧ w ∈ nodeWays o q.loc ∧
      w.nodes.any (fun m => m.id = q.loc.id) = true) ∧
    (∃ w2, w2 ∈ nodeWays o q.loc ∧ q.dest ∈ w2.nodes) := by
  unfold Person.planDest at h
  cases hw1 : Node.randWay o p.loc r with
  | none => rw [hw1] at h; exact absurd h (by simp)
  | some wr1 =>
    obtain ⟨w, rb⟩ := wr1
    rw [hw1] at h
    dsimp only at h
    cases hw2 : Node.randWay o p.loc rb with
    | none => rw [hw2] at h; exact absurd h (by simp)
    | some wr2 =>
      obtain ⟨w2, rc⟩ := wr2
      rw [hw2] at h
      dsimp only at h
      cases hnd : Way.randNode w2 rc with
      | none => rw [hnd] at h; exact absurd h (by simp)
      | some ndr =>
        obtain ⟨nd, rd⟩ := ndr
        rw [hnd] at h
        dsimp only at h
        simp only [Option.some.injEq, Prod.mk.injEq] at h
        obtain ⟨hp, _⟩ := h
        subst hp
        refine ⟨rfl, ⟨w, rfl, ?_, ?_⟩, ⟨w2, ?_, ?_⟩⟩
        · exact randWay_mem o p.loc r rb w hw1
        · exact (mem_nodeWays_contains o p.loc w (randWay_mem o p.loc r rb w hw1)).2
        · exact randWay_mem o p.loc rb rc w2 hw2
        · exact randNode_mem w2 rc rd nd hnd

/-- Claim C6, amended: after every successful Plan -- at agent creation
(HandleStart) and equally at every arrival re-plan (the snap branch of
Person.Move) -- the agent stands on the planned node (a random graph node at
creation, the previous destination at arrival), its stored way is one of the
ways through that node (and hence its node list mentions the node's id), and
the destination lies on SOME way through that node; but the destination's way
is an independent second random pick, so the destination need not lie on the
stored way and need not differ from the origin, and no retry of a colliding
pick takes place. -/
theorem plan_invariant :
    (∀ (o : Osm) (uid : String) (r r1 : List Nat) (p : Person),
      handleStart o uid r = some (p, r1) →
      p.loc ∈ o.nodes ∧
      (∃ w, p.way = some w ∧ w ∈ nodeWays o p.loc ∧
        w.nodes.any (fun m => m.id = p.loc.id) = true) ∧
      (∃ w2, w2 ∈ nodeWays o p.loc ∧ p.dest ∈ w2.nodes)) ∧
    (∀ (g : Geo) (o : Osm) (dist : ℚ) (p q : Person) (r r1 : List Nat),
      Person.move g o dist p r = some (q, r1) →
      (g.geoTo (Node.move g p.loc dist (g.geoTo p.loc p.dest).2) p.dest).1 < dist →
      q.loc = p.dest ∧
      (∃ w, q.way = some w ∧ w ∈ nodeWays o q.loc ∧
        w.nodes.any (fun m => m.id = q.loc.id) = true) ∧
      (∃ w2, w2 ∈ nodeWays o q.loc ∧ q.dest ∈ w2.nodes)) := by
  constructor
  · intro o uid r r1 p h
    unfold handleStart at h
    cases hn : Osm.randNode o r with
    | none => rw [hn] at h; exact absurd h (by simp)
    | some nr =>
      obtain ⟨n, ra⟩ := nr
      rw [hn] at h
      dsimp only at h
      have hinv := planDest_invariant o (NewPerson uid n) p ra r1 h
      refine ⟨?_, hinv.2.1, hinv.2.2⟩
      rw [hinv.1]
      exact osmRandNode_mem o r ra n hn
  · intro g o dist p q r r1 h hlt
    unfold Person.move at h
    dsimp only at h
    rw [if_pos hlt] at h
    have hinv := planDest_invariant o _ q r r1 h
    exact ⟨hinv.1, hinv.2.1, hinv.2.2⟩

/-- Witness for the amended C6 theorem, exercising both planning sites on the
concrete graph osmT1: the creation of agent a with the all-zeros oracle, and
the arrival re-plan of pC1 (whose step of 1 snaps it onto tn2, where it is
re-planned toward tn0). -/
theorem plan_invariant_witness :
    (pA0.loc ∈ osmT1.nodes ∧
      (∃ w, pA0.way = some w ∧ w ∈ nodeWays osmT1 pA0.loc ∧
        w.nodes.any (fun m => m.id = pA0.loc.id) = true) ∧
      (∃ w2, w2 ∈ nodeWays osmT1 pA0.loc ∧ pA0.dest ∈ w2.nodes)) ∧
    (pC1after.loc = pC1.dest ∧
      (∃ w, pC1after.way = some w ∧ w ∈ nodeWays osmT1 pC1after.loc ∧
        w.nodes.any (fun m => m.id = pC1after.loc.id) = true) ∧
      (∃ w2, w2 ∈ nodeWays osmT1 pC1after.loc ∧ pC1after.dest ∈ w2.nodes)) :=
  ⟨plan_invariant.1 osmT1 "a" [0, 0, 0, 0] [] pA0
      (by norm_num [handleStart, Osm.randNode, NewPerson, Person.planDest, Node.randWay,
        Way.randNode, nodeWays, intn, osmT1, wT1, tn0, tn2, pA0]),
   plan_invariant.2 geoLine osmT1 1 pC1 pC1after [0, 0, 0] []
      (by norm_num [Person.move, Node.move, Person.planDest, Node.randWay, Way.randNode,
        nodeWays, intn, geoLine, osmT1, wT1, tn0, tn2, pC1, pC1after])
      (by norm_num [Node.move, geoLine, pC1, tn0, tn2])⟩

/-- The tick sweep keeps the registry's length and leaves every disabled
entry untouched at its position. -/
theorem tickSweep_disabled (g : Geo) (o : Osm) (d : ℚ) (reg : Registry) :
    ∀ (rs : Registry) (r r1 : List Nat), tickSweep g o d reg r = some (rs, r1) →
      rs.length = reg.length ∧
      ∀ (i : Nat) (uid : String) (p : Person), reg[i]? = some (uid, p) →
        p.enabled = false → rs[i]? = some (uid, p) := by
  induction reg with
  | nil =>
    intro rs r r1 h
    simp only [tickSweep, Option.some.injEq, Prod.mk.injEq] at h
    obtain ⟨h1, _⟩ := h
    subst h1
    refine ⟨rfl, ?_⟩
    intro i uid p hi
    simp at hi
  | cons e rest ih =>
    intro rs r r1 h
    simp only [tickSweep] at h
    split at h
    · rename_i he
      cases hm : Person.move g o d e.2 r with
      | none => rw [hm] at h; exact absurd h (by simp)
      | some pr =>
        obtain ⟨p1, ra⟩ := pr
        rw [hm] at h
        dsimp only at h
        cases hts : tickSweep g o d rest ra with
        | none => rw [hts] at h; exact absurd h (by simp)
        | some rsr =>
          obtain ⟨rs0, rb⟩ := rsr
          rw [hts] at h
          dsimp only at h
          simp only [Option.some.injEq, Prod.mk.injEq] at h
          obtain ⟨h1, _⟩ := h
          subst h1
          obtain ⟨hlen, hrest⟩ := ih rs0 ra rb hts
          refine ⟨by simp [hlen], ?_⟩
          intro i uid p hi hpe
          cases i with
          | zero =>
            simp only [List.getElem?_cons_zero, Option.some.injEq] at hi
            rw [hi] at he
            simp only at he
            rw [hpe] at he
            exact absurd he (by simp)
          | succ j =>
            simp only [List.getElem?_cons_succ] at hi ⊢
            exact hrest j uid p hi hpe
    · rename_i he
      cases hts : tickSweep g o d rest r with
      | none => rw [hts] at h; exact absurd h (by simp)
      | some rsr =>
        obtain ⟨rs0, rb⟩ := rsr
        rw [hts] at h
        dsimp only at h
        simp only [Option.some.injEq, Prod.mk.injEq] at h
        obtain ⟨h1, _⟩ := h
        subst h1
        obtain ⟨hlen, hrest⟩ := ih rs0 r rb hts
        refine ⟨by simp [hlen], ?_⟩
        intro i uid p hi hpe
        cases i with
        | zero =>
          simp only [List.getElem?_cons_zero, Option.some.injEq] at hi ⊢
          exact hi
        | succ j =>
          simp only [List.getElem?_cons_succ] at hi ⊢
          exact hrest j uid p hi hpe

/-- Claim C7: a full tick leaves every disabled (paused) agent entirely
unchanged: the registry keeps its length, and at every position holding an
agent with enabled = false the entry after the tick is identical (same uid,
position, destination, way, bearing and flag), because the advance sweep
skips it and the publish does not write to the registry. -/
theorem onTick_disabled_unchanged (g : Geo) (o : Osm)
    (sink : String → ℚ → ℚ → Option Unit)
    (reg rs : Registry) (r r1 : List Nat) (h : onTick g o sink reg r = some (rs, r1)) :
    rs.length = reg.length ∧
    ∀ (i : Nat) (uid : String) (p : Person), reg[i]? = some (uid, p) →
      p.enabled = false → rs[i]? = some (uid, p) := by
  unfold onTick at h
  cases hts : tickSweep g o walkingSpeed reg r with
  | none => rw [hts] at h; exact absurd h (by simp)
  | some rsr =>
    obtain ⟨rs0, rb⟩ := rsr
    rw [hts] at h
    dsimp only at h
    cases hup : updatePeople sink rs0 with
    | none => rw [hup] at h; exact absurd h (by simp)
    | some u =>
      rw [hup] at h
      dsimp only at h
      simp only [Option.some.injEq, Prod.mk.injEq] at h
      obtain ⟨h1, _⟩ := h
      subst h1
      exact tickSweep_disabled g o walkingSpeed reg rs0 r rb hts

/-- Witness for the C7 theorem: a registry holding only the paused agent pDis
passes through a full tick unchanged. -/
theorem onTick_disabled_unchanged_witness :
    ([("d", pDis)] : Registry)[0]? = some ("d", pDis) :=
  (onTick_disabled_unchanged geo0 osm0 sinkOk [("d", pDis)] [("d", pDis)] [] [] rfl).2
    0 "d" pDis rfl rfl

/-- Claim C8 (code bug), evaluating the code at the failing input: when the
database upsert fails for the single registered agent, UpdatePeople panics
(none) instead of logging and continuing, and the whole tick aborts with it:
a sink error is fatal to the simulation. -/
theorem sink_error_fatal :
    updatePeople sinkFail [("d", pDis)] = none ∧
    onTick geo0 osm0 sinkFail [("d", pDis)] [] = none := by
  refine ⟨rfl, rfl⟩

end Gosim
